import Mathlib

/-!
Verification of the `irrpt-ng` IRR whois client (`src/lib/IRRClient.py`)
against its natural-language specification.

The embedding is shallow: the wire is a list of lines that the server has
sent (the read side) together with an explicit list of the commands the
client wrote; Python exceptions become an `Except` result; Python strings
are Lean `String`s; the in-memory cache is an association list keyed by
`Int ⊕ String` (integer ASN keys versus string set-name keys, mirroring
the type-based domain separation of the Python `dict`).

The CIDR library (`IPy`) is an external collaborator of the repository;
its pieces used by `RouteSet` are modelled from the spec (sections 4.3
and 6): parsing network literals into typed networks, normalising a
literal to its covering network (`make_net`), and merging
adjacent/overlapping prefixes in aggregated mode.
-/

namespace IRRPT

/-! ## Python string primitives -/

/-- The characters Python's `str.strip` family treats as whitespace. -/
def pyIsSpace (c : Char) : Bool :=
  c == ' ' || c == '\t' || c == '\n' || c == '\r' || c == '\x0b' || c == '\x0c'

/-- Python `s.rstrip()`: drop trailing whitespace. -/
def pyRstrip (s : String) : String :=
  String.mk ((s.toList.reverse.dropWhile pyIsSpace).reverse)

/-- Python `s.lstrip("AS")`: drop leading characters drawn from {A, S}. -/
def pyLstripAS (s : String) : String :=
  String.mk (s.toList.dropWhile (fun c => c == 'A' || c == 'S'))

/-- Python `s.upper()` (ASCII case mapping, enough for protocol data). -/
def pyUpper (s : String) : String :=
  String.mk (s.toList.map Char.toUpper)

/-- Whitespace word-split on a character list, as Python `s.split()`:
maximal runs of non-whitespace characters, empty tokens impossible.  A
non-space character either starts a fresh token (at the end or before a
space) or is prepended to the token the rest of the list starts
with. -/
def splitWsAux : List Char → List (List Char)
  | [] => []
  | c :: cs =>
    let r := splitWsAux cs
    if pyIsSpace c then r
    else
      match cs with
      | [] => [[c]]
      | d :: _ =>
        if pyIsSpace d then [c] :: r
        else
          match r with
          | [] => [[c]]
          | t :: ts => (c :: t) :: ts

/-- Python `s.split()` with no argument. -/
def pySplit (s : String) : List String :=
  (splitWsAux s.toList).map String.mk

/-- Value of a nonempty all-digit character list. -/
def digitsValAux : List Char → Nat → Option Nat
  | [], acc => some acc
  | d :: ds, acc =>
    if d.isDigit then digitsValAux ds (acc * 10 + (d.toNat - 48)) else none

/-- Returns `some n` when the list is a nonempty run of decimal digits. -/
def digitsVal : List Char → Option Nat
  | [] => none
  | l => digitsValAux l 0

/-- Python `int(s)` for base 10: surrounding whitespace allowed, then an
optional sign and a nonempty digit run; `none` models the `ValueError`. -/
def pyIntOfStr (s : String) : Option Int :=
  let l := ((s.toList.dropWhile pyIsSpace).reverse.dropWhile pyIsSpace).reverse
  match l with
  | '-' :: ds => (digitsVal ds).map (fun n => -(n : Int))
  | '+' :: ds => (digitsVal ds).map (fun n => (n : Int))
  | ds => (digitsVal ds).map (fun n => (n : Int))

/-- Whether the character list contains `AS` as a (contiguous) substring. -/
def containsAS : List Char → Bool
  | 'A' :: 'S' :: _ => true
  | _ :: cs => containsAS cs
  | [] => false

/-! ## Python exceptions and the truthiness of `_response` results -/

/-- The Python exceptions the modelled code can raise, plus `diverge`,
which marks the infinite read loop `_response` enters when the stream
ends before `datalen` bytes have arrived. -/
inductive PyErr where
  | typeError
  | valueError
  | attributeError
  | indexError
  | diverge
deriving DecidableEq, Repr

/-- The value `_response` evaluates to: Python `True`, `False`, or a
body string. -/
inductive RResult where
  | tt
  | ff
  | str (s : String)
deriving DecidableEq, Repr

/-- Python truthiness of a `_response` result (`bool`s, and the empty
string is falsy). -/
def RResult.truthy : RResult → Bool
  | .tt => true
  | .ff => false
  | .str s => !(s == "")

/-! ## The read side of the socket: a list of lines -/

/-- Model of `self.f.readline()`: pop the next line; at end-of-stream Python's
`readline` returns the empty string. -/
def readLine : List String → String × List String
  | [] => ("", [])
  | l :: ls => (l, ls)

/-- The `while len(data) < datalen` accumulation loop of `_response`:
keep appending lines until the data is at least `n` long.  `none` models
the case where the stream is exhausted first (the Python loop would then
spin forever on empty `readline` results). -/
def readBody (n : Int) : List String → String → Option (String × List String)
  | [], data =>
    if (data.length : Int) < n then none else some (data, [])
  | l :: rest, data =>
    if (data.length : Int) < n then readBody n rest (data ++ l)
    else some (data, l :: rest)

/-- Model of `IRRClient._response`.  Reads the header line and dispatches on its
first character: `C`/`E` yield `True`, `D`/`F` yield `False`, `A` is
followed by a decimal body length, a body, and one footer line, and any
other header is a parse error yielding `False`.  An empty header raises
`IndexError` (`header[0]`); an unparseable length after `A` raises
`ValueError` (`int(header[1:])`).  The body-length mismatch check only
logs, so it does not appear in the result. -/
def response (stream : List String) : Except PyErr RResult × List String :=
  let p := readLine stream
  let header := pyRstrip p.1
  match header.toList with
  | [] => (.error .indexError, p.2)
  | c :: restc =>
    if c == 'C' then (.ok .tt, p.2)
    else if c == 'D' then (.ok .ff, p.2)
    else if c == 'E' then (.ok .tt, p.2)
    else if c == 'F' then (.ok .ff, p.2)
    else if c == 'A' then
      match pyIntOfStr (String.mk restc) with
      | none => (.error .valueError, p.2)
      | some datalen =>
        match readBody datalen p.2 "" with
        | none => (.error .diverge, [])
        | some (data, s2) =>
          let q := readLine s2
          (.ok (.str (pyRstrip data)), q.2)
    else (.ok .ff, p.2)

example : response ["C\n", "x"] = (.ok .tt, ["x"]) := rfl
example : response ["A5\n", "hello\n", "f\n", "z"] = (.ok (.str "hello"), ["z"]) := rfl
example : response ["A0\n", "f\n"] = (.ok (.str ""), []) := rfl
example : response ["Fbad syntax\n"] = (.ok .ff, []) := rfl
example : response ["zzz\n"] = (.ok .ff, []) := rfl
example : response ["Axx\n"] = (.error .valueError, []) := rfl

instance {ε α : Type} [DecidableEq ε] [DecidableEq α] : DecidableEq (Except ε α) := fun x y =>
  match x, y with
  | .ok a, .ok b =>
    if h : a = b then .isTrue (by rw [h])
    else .isFalse (by intro hc; cases hc; exact h rfl)
  | .error a, .error b =>
    if h : a = b then .isTrue (by rw [h])
    else .isFalse (by intro hc; cases hc; exact h rfl)
  | .ok _, .error _ => .isFalse (by intro hc; cases hc)
  | .error _, .ok _ => .isFalse (by intro hc; cases hc)

/-! ## The CIDR library model

Modelled from the spec: the repository's `RouteSet` delegates to the
external `IPy` library (spec sections 1, 4.3 and 6), which "parses
address/prefix strings into typed networks" and "merges overlapping
ones".  The model below provides typed networks (`IPNet`), the
normalising parse `IP(item, make_net=True)` (bare addresses become full
length host networks, host bits are cleared), the aggregated prefix set
(`IPSet`: a list of prefixes kept merged), and the plain Python `set` of
parsed network objects used in non-aggregated mode. -/

/-- A typed network: address family version (4 or 6), network address
(an integer with the host bits cleared), and prefix length. -/
structure IPNet where
  version : Nat
  addr : Nat
  prefixlen : Nat
deriving DecidableEq, Repr

/-- Address width of a family. -/
def ipWidth (v : Nat) : Nat := if v == 4 then 32 else 128

/-- Number of addresses covered by a network. -/
def ipSize (p : IPNet) : Nat := 2 ^ (ipWidth p.version - p.prefixlen)

/-- Range containment between typed networks, as the library's
membership test compares network start and end: `p` is inside `q`. -/
def subnetOf (p q : IPNet) : Bool :=
  p.version == q.version && decide (q.addr ≤ p.addr)
    && decide (p.addr + ipSize p ≤ q.addr + ipSize q)

/-- One dotted-quad octet: a nonempty digit run valued at most 255. -/
def parseOctet (l : List Char) : Option Nat :=
  match digitsVal l with
  | some n => if n ≤ 255 then some n else none
  | none => none

/-- Split a character list on a separator character (Python
`s.split(sep)`: empty pieces are kept). -/
def splitOnChar (sep : Char) : List Char → List (List Char)
  | [] => [[]]
  | c :: cs =>
    if c == sep then [] :: splitOnChar sep cs
    else
      match splitOnChar sep cs with
      | [] => [[c]]
      | t :: ts => (c :: t) :: ts

/-- Dotted-quad IPv4 address to its integer value. -/
def parseV4Addr (l : List Char) : Option Nat :=
  match (splitOnChar '.' l).mapM parseOctet with
  | some [a, b, c, d] => some (((a * 256 + b) * 256 + c) * 256 + d)
  | _ => none

/-- One IPv6 hextet: a nonempty hex-digit run of at most 4 digits. -/
def parseHextet (l : List Char) : Option Nat :=
  if l ≠ [] ∧ l.length ≤ 4 ∧ l.all (fun c => c.isDigit || ('A' ≤ c ∧ c ≤ 'F') || ('a' ≤ c ∧ c ≤ 'f')) then
    some (l.foldl (fun acc c =>
      acc * 16 + (if c.isDigit then c.toNat - 48
        else if 'a' ≤ c then c.toNat - 87 else c.toNat - 55)) 0)
  else none

/-- Uncompressed colon-separated IPv6 address to its integer value
(the model covers the `h:h:h:h:h:h:h:h` form of the literals the
protocol carries). -/
def parseV6Addr (l : List Char) : Option Nat :=
  match (splitOnChar ':' l).mapM parseHextet with
  | some gs => if gs.length == 8 then some (gs.foldl (fun acc g => acc * 65536 + g) 0) else none
  | _ => none

/-- Clear the host bits of an address for a given width and prefix
length (the `make_net=True` normalisation). -/
def maskAddr (w : Nat) (n : Nat) (a : Nat) : Nat :=
  a / 2 ^ (w - n) * 2 ^ (w - n)

/-- Model of `IP(s, make_net=True)` on a string literal: family selected by the
presence of `:`, optional `/len` suffix, bare addresses a full-length
host network, host bits cleared.  A malformed literal is a
`ValueError`. -/
def ipMakeNetStr (s : String) : Except PyErr IPNet :=
  let l := s.toList
  if l.contains ':' then
    match splitOnChar '/' l with
    | [al] =>
      match parseV6Addr al with
      | some a => .ok ⟨6, a, 128⟩
      | none => .error .valueError
    | [al, nl] =>
      match parseV6Addr al, digitsVal nl with
      | some a, some n =>
        if n ≤ 128 then .ok ⟨6, maskAddr 128 n a, n⟩ else .error .valueError
      | _, _ => .error .valueError
    | _ => .error .valueError
  else
    match splitOnChar '/' l with
    | [al] =>
      match parseV4Addr al with
      | some a => .ok ⟨4, a, 32⟩
      | none => .error .valueError
    | [al, nl] =>
      match parseV4Addr al, digitsVal nl with
      | some a, some n =>
        if n ≤ 32 then .ok ⟨4, maskAddr 32 n a, n⟩ else .error .valueError
      | _, _ => .error .valueError
    | _ => .error .valueError

/-- A Python value reaching `RouteSet.add` or `RouteSet.__contains__`:
a raw string, an already parsed network object, or an integer. -/
inductive PyVal where
  | str (s : String)
  | ipnet (p : IPNet)
  | intv (n : Int)
deriving DecidableEq, Repr

/-- Model of `IP(value, make_net=True)` on any of the Python values the client
passes: strings are parsed, network objects pass through, and integers
are taken as raw addresses (v4 when they fit in 32 bits). -/
def ipMakeNet : PyVal → Except PyErr IPNet
  | .str s => ipMakeNetStr s
  | .ipnet p => .ok p
  | .intv n =>
    if 0 ≤ n ∧ n < 2 ^ 32 then .ok ⟨4, n.toNat, 32⟩
    else if 0 ≤ n ∧ n < 2 ^ 128 then .ok ⟨6, n.toNat, 128⟩
    else .error .valueError

/-- The parent network one prefix length up, host bits cleared. -/
def parentNet (p : IPNet) : IPNet :=
  ⟨p.version, maskAddr (ipWidth p.version) (p.prefixlen - 1) p.addr, p.prefixlen - 1⟩

/-- Whether `q` is the sibling of `p`: same family and prefix length,
same parent, different address. -/
def isSibling (p q : IPNet) : Bool :=
  q.version == p.version && q.prefixlen == p.prefixlen
    && decide (parentNet q = parentNet p) && !(q.addr == p.addr)

/-- Merge a freshly inserted prefix upwards: while its sibling is
present, replace the pair by the parent.  The fuel is the prefix
length, which strictly decreases at each merge. -/
def mergeUp : Nat → IPNet → List IPNet → List IPNet
  | 0, p, l => p :: l
  | fuel + 1, p, l =>
    match l.find? (fun q => isSibling p q) with
    | none => p :: l
    | some s => mergeUp fuel (parentNet p) (l.erase s)

/-- Aggregated insert: already-covered prefixes change nothing,
otherwise prefixes now covered are dropped and the new prefix is merged
with its siblings (spec: "Aggregation merges adjacent/overlapping
prefixes within each family"). -/
def ipsetAdd (p : IPNet) (l : List IPNet) : List IPNet :=
  if l.any (fun q => subnetOf p q) then l
  else mergeUp p.prefixlen p (l.filter (fun q => !subnetOf q p))

/-- Aggregated membership of a parsed network: it must lie inside one
of the stored covering prefixes. -/
def ipsetContainsNet (l : List IPNet) (p : IPNet) : Bool :=
  l.any (fun q => subnetOf p q)

/-- Non-aggregated insert: Python `set.add` of the parsed network
object. -/
def setAdd (p : IPNet) (l : List IPNet) : List IPNet :=
  if p ∈ l then l else p :: l

/-! ## RouteSet (`src/lib/IRRClient.py`, class `RouteSet`) -/

/-- Model of `RouteSet`: the aggregate flag chosen at construction and the two
per-family buckets.  In aggregated mode a bucket is the library's
merged prefix set, otherwise a plain set of parsed network objects;
both are lists of typed networks here, distinguished by the flag. -/
structure RouteSetM where
  aggregate : Bool
  ip4 : List IPNet
  ip6 : List IPNet
deriving DecidableEq, Repr

/-- Model of `RouteSet()` with no initial routes. -/
def RouteSetM.empty (agg : Bool) : RouteSetM := ⟨agg, [], []⟩

/-- Route a parsed network into its family bucket (`RouteSet.add` after
the `IP(item, make_net=True)` parse). -/
def RouteSetM.addNet (rs : RouteSetM) (p : IPNet) : RouteSetM :=
  if p.version == 4 then
    { rs with ip4 := if rs.aggregate then ipsetAdd p rs.ip4 else setAdd p rs.ip4 }
  else if p.version == 6 then
    { rs with ip6 := if rs.aggregate then ipsetAdd p rs.ip6 else setAdd p rs.ip6 }
  else rs

/-- Model of `RouteSet.add(item)`: parse (raising `ValueError` on a malformed
literal), then insert by family. -/
def RouteSetM.addVal (rs : RouteSetM) (v : PyVal) : Except PyErr RouteSetM :=
  match ipMakeNet v with
  | .error e => .error e
  | .ok p => .ok (rs.addNet p)

/-- Model of `RouteSet.__contains__(item)`: `item in self.ip4 or item in
self.ip6`, with the raw item passed through unnormalised.  In
non-aggregated mode the buckets are Python sets of parsed network
objects, so a raw string or integer probe is simply not an element; in
aggregated mode the library's merged set compares the probe against
typed networks, which fails with a `TypeError` for a non-network
probe. -/
def RouteSetM.containsVal (rs : RouteSetM) (v : PyVal) : Except PyErr Bool :=
  if rs.aggregate then
    match v with
    | .ipnet p => .ok (ipsetContainsNet rs.ip4 p || ipsetContainsNet rs.ip6 p)
    | _ => .error .typeError
  else
    match v with
    | .ipnet p => .ok (decide (p ∈ rs.ip4) || decide (p ∈ rs.ip6))
    | _ => .ok false

/-- Model of `RouteSet.__len__`: number of stored prefixes over both buckets. -/
def RouteSetM.size (rs : RouteSetM) : Nat := rs.ip4.length + rs.ip6.length

/-- Python truthiness of a `RouteSet` (via `__len__`). -/
def RouteSetM.truthy (rs : RouteSetM) : Bool := !(rs.size == 0)

/-- Model of `RouteSet.__iter__`: all v4 entries then all v6 entries. -/
def RouteSetM.elems (rs : RouteSetM) : List IPNet := rs.ip4 ++ rs.ip6

/-- Python truthiness of a network object (its address count, never
zero). -/
def ipNetTruthy (p : IPNet) : Bool := !(ipSize p == 0)

example : ipMakeNetStr "192.0.2.0/24" = .ok ⟨4, 3221225984, 24⟩ := by decide
example : ipMakeNetStr "192.0.2.77" = .ok ⟨4, 3221226061, 32⟩ := by decide
example : ipMakeNetStr "192.0.2.77/24" = .ok ⟨4, 3221225984, 24⟩ := by decide
example : ipMakeNetStr "garbage" = .error .valueError := by decide

/-! ## Client state (`IRRClient.__init__` and the cache helpers) -/

/-- Cache keys: integer ASN keys and string set-name keys share one
`dict`, separated by their type. -/
abbrev CacheKey := Int ⊕ String

/-- The mutable fields of an `IRRClient` the modelled methods touch.
`host`, `port` and the file/socket handles live in the I/O layer; the
unused `_ascache` is omitted. -/
structure ClientState where
  caching : Bool
  aggregate : Bool
  ipv6 : Bool
  cache : List (CacheKey × RouteSetM)
  lastcommand : Option String
deriving DecidableEq, Repr

/-- Model of `IRRClient.__init__(host, port, cache, aggregate, ipv6)`.  Note the
source assigns `self.ipv6 = True`, ignoring the `ipv6` argument; the
model reproduces that line. -/
def initClient (cache : Bool) (aggregate : Bool) (ipv6 : Bool) : ClientState :=
  { caching := cache, aggregate := aggregate, ipv6 := true,
    cache := [], lastcommand := none }

/-- Association-list lookup of the cache `dict`. -/
def cacheGet : List (CacheKey × RouteSetM) → CacheKey → Option RouteSetM
  | [], _ => none
  | e :: rest, k => if e.1 = k then some e.2 else cacheGet rest k

/-- Association-list store of the cache `dict`. -/
def cacheSet (c : List (CacheKey × RouteSetM)) (k : CacheKey) (v : RouteSetM) :
    List (CacheKey × RouteSetM) :=
  match c with
  | [] => [(k, v)]
  | e :: rest => if e.1 = k then (k, v) :: rest else e :: cacheSet rest k v

/-- Model of `IRRClient._is_cached`: caching enabled and the key present. -/
def isCached (st : ClientState) (k : CacheKey) : Bool :=
  st.caching && (cacheGet st.cache k).isSome

/-- Model of `IRRClient._get_cache`: the entry when caching is enabled and the
key is present (`none` stands for the `False` it otherwise returns). -/
def getCache (st : ClientState) (k : CacheKey) : Option RouteSetM :=
  if st.caching then cacheGet st.cache k else none

/-- Model of `IRRClient._set_cache`: store only when caching is enabled. -/
def setCacheSt (st : ClientState) (k : CacheKey) (v : RouteSetM) : ClientState :=
  if st.caching then { st with cache := cacheSet st.cache k v } else st

/-- Model of `IRRClient._send`: records `output.rstrip()` as the last command;
the transmitted bytes are collected separately in each method's `sent`
list. -/
def sendCmd (st : ClientState) (cmd : String) : ClientState :=
  { st with lastcommand := some (pyRstrip cmd) }

/-- The outcome of one client method: the returned value or the raised
exception, the state afterwards, the unread rest of the stream, and the
commands written to the socket, in order. -/
structure Run (α : Type) where
  val : Except PyErr α
  st : ClientState
  stream : List String
  sent : List String
deriving DecidableEq, Repr

/-! ## connect (`IRRClient.connect`) -/

/-- What `connect` evaluates to: the client object itself on success,
`False` on a reported failure. -/
inductive ConnectRes where
  | selfHandle
  | falseV
deriving DecidableEq, Repr

/-- Model of `IRRClient.connect`.  `sock` is the current `self.s` (fresh clients
hold `None`); `createOk` tells whether `socket.create_connection`
succeeds.  On success the handshake sends `!!` and `!nirrpt-ng` and
consumes one response.  On a `socket.error` the handler runs
`self.s.close()` before clearing `self.s` — an `AttributeError` when
`self.s` is `None`. -/
def connect (sock : Option Unit) (createOk : Bool) (st : ClientState)
    (stream : List String) : Run ConnectRes :=
  if createOk then
    let st1 := sendCmd st "!!\n"
    let st2 := sendCmd st1 "!nirrpt-ng\n"
    match response stream with
    | (.error e, s1) => ⟨.error e, st2, s1, ["!!\n", "!nirrpt-ng\n"]⟩
    | (.ok _, s1) => ⟨.ok .selfHandle, st2, s1, ["!!\n", "!nirrpt-ng\n"]⟩
  else
    match sock with
    | none => ⟨.error .attributeError, st, stream, []⟩
    | some _ => ⟨.ok .falseV, st, stream, []⟩

/-! ## get_routes_by_origin (`IRRClient.get_routes_by_origin`) -/

/-- An argument passed for `origin`: an integer, a string, or `None`. -/
inductive PyArg where
  | int (n : Int)
  | str (s : String)
  | nonev
deriving DecidableEq, Repr

/-- Python `int(origin)` coercion; `none` models the exception the
bare `except:` turns into a `TypeError`. -/
def pyCoerceInt : PyArg → Option Int
  | .int n => some n
  | .str s => pyIntOfStr s
  | .nonev => none

/-- Model of `RouteSet.add` folded over a token list, stopping at the first
raised exception. -/
def addAll (rs : RouteSetM) : List PyVal → Except PyErr RouteSetM
  | [] => .ok rs
  | v :: vs =>
    match rs.addVal v with
    | .error e => .error e
    | .ok rs2 => addAll rs2 vs

/-- Model of `if response: for r in response.split(): routes.add(r)` — a truthy
`True` result has no `.split` (`AttributeError`), a falsy result skips
the loop. -/
def addRespTokens (rs : RouteSetM) (r : RResult) : Except PyErr RouteSetM :=
  if r.truthy then
    match r with
    | .str s => addAll rs ((pySplit s).map PyVal.str)
    | _ => .error .attributeError
  else .ok rs

/-- Model of `IRRClient.get_routes_by_origin(origin)`: coerce the origin (a
`TypeError` before any I/O otherwise), serve a cache hit without
touching the wire, else query `!gASn`, then — `self.ipv6` — `!6ASn`,
collect the returned prefixes into one `RouteSet`, cache and return
it. -/
def getRoutesByOrigin (st : ClientState) (stream : List String) (origin : PyArg) :
    Run RouteSetM :=
  match pyCoerceInt origin with
  | none => ⟨.error .typeError, st, stream, []⟩
  | some n =>
    if isCached st (Sum.inl n) then
      ⟨.ok ((getCache st (Sum.inl n)).getD (RouteSetM.empty st.aggregate)), st, stream, []⟩
    else
      let cmd4 := "!gAS" ++ toString n ++ "\n"
      let st1 := sendCmd st cmd4
      match response stream with
      | (.error e, s1) => ⟨.error e, st1, s1, [cmd4]⟩
      | (.ok r1, s1) =>
        match addRespTokens (RouteSetM.empty st.aggregate) r1 with
        | .error e => ⟨.error e, st1, s1, [cmd4]⟩
        | .ok routes1 =>
          if st1.ipv6 then
            let cmd6 := "!6AS" ++ toString n ++ "\n"
            let st2 := sendCmd st1 cmd6
            match response s1 with
            | (.error e, s2) => ⟨.error e, st2, s2, [cmd4, cmd6]⟩
            | (.ok r2, s2) =>
              match addRespTokens routes1 r2 with
              | .error e => ⟨.error e, st2, s2, [cmd4, cmd6]⟩
              | .ok routes2 =>
                ⟨.ok routes2, setCacheSt st2 (Sum.inl n) routes2, s2, [cmd4, cmd6]⟩
          else
            ⟨.ok routes1, setCacheSt st1 (Sum.inl n) routes1, s1, [cmd4]⟩

/-! ## get_data_by_set (`IRRClient.get_data_by_set`) -/

/-- What `get_data_by_set` evaluates to: the `(RouteSet, tuple of
ASNs)` pair of the normal paths, or the bare cached `RouteSet` of the
cache-hit path. -/
inductive SetResult where
  | tup (rs : RouteSetM) (asns : List Int)
  | bare (rs : RouteSetM)
deriving DecidableEq, Repr

/-- Whether a `get_data_by_set` result is the pair form. -/
def SetResult.isTup : SetResult → Bool
  | .tup _ _ => true
  | .bare _ => false

/-- Model of `tuple(int(asn.lstrip("AS")) for asn in response.split())`; `none`
models the `ValueError` raised by `int` on a non-numeric remainder. -/
def parseAutnums : List String → Option (List Int)
  | [] => some []
  | t :: ts =>
    match pyIntOfStr (pyLstripAS t) with
    | none => none
    | some n => (parseAutnums ts).map (fun l => n :: l)

/-- The classification heuristic on the uppercased response text:
contains `:` or `.` and does not contain `AS`. -/
def classifiesRouteSet (resp : String) : Bool :=
  (resp.toList.contains ':' || resp.toList.contains '.') && !containsAS resp.toList

/-- The as-set loop of `get_data_by_set`: for each member ASN resolve
its routes (each sub-call may hit the cache or the wire) and merge
every truthy element into the accumulating `RouteSet`. -/
def asSetLoop (st : ClientState) (stream : List String) (routes : RouteSetM) :
    List Int → Run RouteSetM
  | [] => ⟨.ok routes, st, stream, []⟩
  | asn :: rest =>
    let out := getRoutesByOrigin st stream (.int asn)
    match out.val with
    | .error e => ⟨.error e, out.st, out.stream, out.sent⟩
    | .ok sub =>
      match addAll routes ((sub.elems.filter ipNetTruthy).map PyVal.ipnet) with
      | .error e => ⟨.error e, out.st, out.stream, out.sent⟩
      | .ok routes2 =>
        let fin := asSetLoop out.st out.stream routes2 rest
        ⟨fin.val, fin.st, fin.stream, out.sent ++ fin.sent⟩

/-- Model of `IRRClient.get_data_by_set(s)`: cache hits return the stored bare
`RouteSet`; otherwise issue the recursive members query `!is,1`, parse
every token into an ASN (after stripping a leading `AS`), classify the
uppercased response text, and either add the parsed tokens directly
(route-set, cached when non-empty) or resolve each member ASN
recursively (as-set). -/
def getDataBySet (st : ClientState) (stream : List String) (s : String) :
    Run SetResult :=
  if isCached st (Sum.inr s) then
    ⟨.ok (.bare ((getCache st (Sum.inr s)).getD (RouteSetM.empty st.aggregate))),
      st, stream, []⟩
  else
    let cmdi := "!i" ++ s ++ ",1\n"
    let st1 := sendCmd st cmdi
    match response stream with
    | (.error e, s1) => ⟨.error e, st1, s1, [cmdi]⟩
    | (.ok r1, s1) =>
      if !r1.truthy then ⟨.ok (.tup (RouteSetM.empty st.aggregate) []), st1, s1, [cmdi]⟩
      else
        match r1 with
        | .str body =>
          let resp := pyUpper body
          match parseAutnums (pySplit resp) with
          | none => ⟨.error .valueError, st1, s1, [cmdi]⟩
          | some autnums =>
            if autnums.isEmpty then
              ⟨.ok (.tup (RouteSetM.empty st.aggregate) autnums), st1, s1, [cmdi]⟩
            else if classifiesRouteSet resp then
              match addAll (RouteSetM.empty st.aggregate) (autnums.map PyVal.intv) with
              | .error e => ⟨.error e, st1, s1, [cmdi]⟩
              | .ok routes1 =>
                let st2 := if routes1.truthy then setCacheSt st1 (Sum.inr s) routes1 else st1
                ⟨.ok (.tup routes1 autnums), st2, s1, [cmdi]⟩
            else
              let fin := asSetLoop st1 s1 (RouteSetM.empty st.aggregate) autnums
              match fin.val with
              | .error e => ⟨.error e, fin.st, fin.stream, cmdi :: fin.sent⟩
              | .ok routes1 =>
                ⟨.ok (.tup routes1 autnums), fin.st, fin.stream, cmdi :: fin.sent⟩
        | _ => ⟨.error .attributeError, st1, s1, [cmdi]⟩

/-! ## set_sources and get_sources -/

/-- What `set_sources` evaluates to: `False` or the token list. -/
inductive SrcResult where
  | falseV
  | toks (l : List String)
deriving DecidableEq, Repr

/-- Model of `IRRClient.set_sources(sources)`: send `!s-sources`, return `False`
on a falsy response, otherwise the whitespace-split tokens. -/
def setSources (st : ClientState) (stream : List String) (sources : String) :
    Run SrcResult :=
  let cmd := "!s-" ++ sources ++ "\n"
  let st1 := sendCmd st cmd
  match response stream with
  | (.error e, s1) => ⟨.error e, st1, s1, [cmd]⟩
  | (.ok r, s1) =>
    if !r.truthy then ⟨.ok .falseV, st1, s1, [cmd]⟩
    else
      match r with
      | .str b => ⟨.ok (.toks (pySplit b)), st1, s1, [cmd]⟩
      | _ => ⟨.error .attributeError, st1, s1, [cmd]⟩

/-- Model of `IRRClient.get_sources()`: send `!s-lc`, return `False` on a falsy
response, otherwise the raw result. -/
def getSources (st : ClientState) (stream : List String) : Run RResult :=
  let st1 := sendCmd st "!s-lc\n"
  match response stream with
  | (.error e, s1) => ⟨.error e, st1, s1, ["!s-lc\n"]⟩
  | (.ok r, s1) =>
    if !r.truthy then ⟨.ok .ff, st1, s1, ["!s-lc\n"]⟩
    else ⟨.ok r, st1, s1, ["!s-lc\n"]⟩

/-! ## Cache and state lemmas -/

theorem cacheGet_cacheSet_self (c : List (CacheKey × RouteSetM)) (k : CacheKey)
    (v : RouteSetM) : cacheGet (cacheSet c k v) k = some v := by
  induction c with
  | nil => simp [cacheSet, cacheGet]
  | cons e rest ih =>
    simp only [cacheSet]
    split
    · simp [cacheGet]
    · simp [cacheGet, *]

theorem cacheGet_cacheSet_ne (c : List (CacheKey × RouteSetM)) (k k' : CacheKey)
    (v : RouteSetM) (h : k' ≠ k) : cacheGet (cacheSet c k v) k' = cacheGet c k' := by
  induction c with
  | nil => simp [cacheSet, cacheGet, Ne.symm h]
  | cons e rest ih =>
    simp only [cacheSet]
    split
    · next he => simp [cacheGet, he, Ne.symm h]
    · simp [cacheGet, ih]

theorem sendCmd_caching (st : ClientState) (c : String) :
    (sendCmd st c).caching = st.caching := rfl

theorem sendCmd_cache (st : ClientState) (c : String) :
    (sendCmd st c).cache = st.cache := rfl

theorem setCacheSt_caching (st : ClientState) (k : CacheKey) (v : RouteSetM) :
    (setCacheSt st k v).caching = st.caching := by
  unfold setCacheSt; split <;> rfl

theorem cacheGet_setCacheSt_self (st : ClientState) (k : CacheKey) (v : RouteSetM)
    (h : st.caching = true) :
    cacheGet (setCacheSt st k v).cache k = some v := by
  simp [setCacheSt, h, cacheGet_cacheSet_self]

theorem cacheGet_setCacheSt_inl (st : ClientState) (n : Int) (v : RouteSetM) (s : String) :
    cacheGet (setCacheSt st (Sum.inl n) v).cache (Sum.inr s)
      = cacheGet st.cache (Sum.inr s) := by
  unfold setCacheSt
  split
  · exact cacheGet_cacheSet_ne _ _ _ _ (by simp)
  · rfl

/-- The cache-hit fast path of `get_routes_by_origin`: with caching on
and the integer key present, the stored `RouteSet` is returned, no
command is sent and the stream is untouched. -/
theorem grbo_hit (st : ClientState) (stream : List String) (n : Int) (rs : RouteSetM)
    (h1 : st.caching = true) (h2 : cacheGet st.cache (Sum.inl n) = some rs) :
    getRoutesByOrigin st stream (.int n) = ⟨.ok rs, st, stream, []⟩ := by
  unfold getRoutesByOrigin
  simp [pyCoerceInt, isCached, getCache, h1, h2]

/-! ## The covering order on networks and the aggregated insert -/

theorem subnetOf_refl (p : IPNet) : subnetOf p p = true := by
  simp [subnetOf]

theorem subnetOf_trans (a b c : IPNet) (h1 : subnetOf a b = true)
    (h2 : subnetOf b c = true) : subnetOf a c = true := by
  simp only [subnetOf, Bool.and_eq_true, beq_iff_eq, decide_eq_true_eq] at h1 h2 ⊢
  obtain ⟨⟨hv1, hle1⟩, hs1⟩ := h1
  obtain ⟨⟨hv2, hle2⟩, hs2⟩ := h2
  exact ⟨⟨hv1.trans hv2, le_trans hle2 hle1⟩, le_trans hs1 hs2⟩

/-- A normalised network lies inside its parent network. -/
theorem subnetOf_parent (p : IPNet) (h1 : 1 ≤ p.prefixlen)
    (h2 : p.prefixlen ≤ ipWidth p.version) (h3 : p.addr % ipSize p = 0) :
    subnetOf p (parentNet p) = true := by
  have hwk : ipWidth p.version - (p.prefixlen - 1)
      = (ipWidth p.version - p.prefixlen) + 1 := by omega
  simp only [subnetOf, parentNet, ipSize, maskAddr, hwk, Bool.and_eq_true,
    beq_iff_eq, decide_eq_true_eq]
  set k := ipWidth p.version - p.prefixlen with hk
  refine ⟨⟨trivial, Nat.div_mul_le_self _ _⟩, ?_⟩
  have hdvd : 2 ^ k ∣ p.addr := by
    refine Nat.dvd_of_mod_eq_zero ?_
    simpa [ipSize, hk] using h3
  have hdm : 2 ^ k ∣ p.addr % 2 ^ (k + 1) :=
    (Nat.dvd_mod_iff (pow_dvd_pow 2 (Nat.le_succ k))).mpr hdvd
  have hmod : p.addr % 2 ^ (k + 1) = 0 ∨ p.addr % 2 ^ (k + 1) = 2 ^ k := by
    obtain ⟨m, hm⟩ := hdm
    have hlt : p.addr % 2 ^ (k + 1) < 2 ^ (k + 1) := Nat.mod_lt _ (by positivity)
    have hm2 : m < 2 := by
      by_contra hge
      push_neg at hge
      rw [hm, pow_succ] at hlt
      nlinarith [Nat.pos_pow_of_pos k (show 0 < 2 by norm_num)]
    interval_cases m
    · left; simpa using hm
    · right; simpa using hm
  set a := p.addr with ha
  set B := (2 : Nat) ^ (k + 1) with hB
  set Q := a / B * B with hQ
  have hQr : Q + a % B = a := by
    rw [hQ, Nat.mul_comm]
    exact Nat.div_add_mod a B
  have hBs : B = 2 * 2 ^ k := by rw [hB]; ring
  rcases hmod with h0 | h0 <;> omega

/-- Merging a normalised prefix upwards always leaves some prefix of
the result covering it. -/
theorem mergeUp_covers : ∀ (fuel : Nat) (p : IPNet) (l : List IPNet),
    p.prefixlen = fuel → p.prefixlen ≤ ipWidth p.version → p.addr % ipSize p = 0 →
    ∃ r, r ∈ mergeUp fuel p l ∧ subnetOf p r = true := by
  intro fuel
  induction fuel with
  | zero =>
    intro p l _ _ _
    exact ⟨p, by simp [mergeUp], subnetOf_refl p⟩
  | succ f ih =>
    intro p l hf hw hn
    simp only [mergeUp]
    cases hfind : l.find? (fun q => isSibling p q) with
    | none => exact ⟨p, by simp, subnetOf_refl p⟩
    | some s =>
      have hp1 : 1 ≤ p.prefixlen := by omega
      have hplen : (parentNet p).prefixlen = f := by
        simp only [parentNet]
        omega
      have hpw : (parentNet p).prefixlen ≤ ipWidth (parentNet p).version := by
        simp only [parentNet]
        exact le_trans (Nat.sub_le _ _) hw
      have hpn : (parentNet p).addr % ipSize (parentNet p) = 0 := by
        simp only [parentNet, ipSize, maskAddr]
        exact Nat.mul_mod_left _ _
      obtain ⟨r, hmem, hsub⟩ := ih (parentNet p) (l.erase s) hplen hpw hpn
      exact ⟨r, hmem, subnetOf_trans p (parentNet p) r (subnetOf_parent p hp1 hw hn) hsub⟩

/-- The aggregated insert keeps the new prefix covered. -/
theorem ipsetAdd_covers (p : IPNet) (l : List IPNet)
    (hw : p.prefixlen ≤ ipWidth p.version) (hn : p.addr % ipSize p = 0) :
    ∃ r, r ∈ ipsetAdd p l ∧ subnetOf p r = true := by
  unfold ipsetAdd
  split
  · next h =>
    obtain ⟨r, hmem, hsub⟩ := List.any_eq_true.mp h
    exact ⟨r, hmem, hsub⟩
  · exact mergeUp_covers p.prefixlen p _ rfl hw hn

/-- Every network produced by the literal parse is well-formed: a
known family, a prefix length within the family width, and cleared
host bits. -/
theorem ipMakeNetStr_inv (s : String) (q : IPNet) (h : ipMakeNetStr s = .ok q) :
    (q.version = 4 ∨ q.version = 6) ∧ q.prefixlen ≤ ipWidth q.version
      ∧ q.addr % ipSize q = 0 := by
  unfold ipMakeNetStr at h
  simp only [] at h
  repeat' split at h
  all_goals try injection h with h2
  all_goals try subst h2
  all_goals simp_all [ipWidth, ipSize, maskAddr, Nat.mul_mod_left, Nat.mod_one]

/-! ## Exception-range lemmas -/

theorem response_no_typeError (stream : List String) :
    (response stream).1 ≠ .error .typeError := by
  intro hc
  unfold response at hc
  simp only [] at hc
  repeat' split at hc
  all_goals simp_all

set_option maxRecDepth 4000 in
theorem ipMakeNet_no_typeError (v : PyVal) :
    ipMakeNet v ≠ .error .typeError := by
  intro hc
  unfold ipMakeNet ipMakeNetStr at hc
  simp only [] at hc
  repeat' split at hc
  all_goals simp_all

theorem addVal_no_typeError (rs : RouteSetM) (v : PyVal) :
    rs.addVal v ≠ .error .typeError := by
  unfold RouteSetM.addVal
  split
  · next e he =>
    intro hc
    cases hc
    exact ipMakeNet_no_typeError v he
  · simp

theorem addAll_no_typeError (l : List PyVal) : ∀ rs : RouteSetM,
    addAll rs l ≠ .error .typeError := by
  induction l with
  | nil => intro rs; simp [addAll]
  | cons v vs ih =>
    intro rs
    simp only [addAll]
    split
    · next e he =>
      intro hc
      cases hc
      exact addVal_no_typeError rs v he
    · next rs2 _ => exact ih rs2

theorem addRespTokens_no_typeError (rs : RouteSetM) (r : RResult) :
    addRespTokens rs r ≠ .error .typeError := by
  unfold addRespTokens
  repeat' split
  all_goals simp [addAll_no_typeError]

/-! ## Claims -/

/-- C1: the claim says a response such as `192.0.2.0/24` (containing
`.`/`:` and no `AS`) is classified as a route-set, its tokens added
directly as prefixes, and the pair returned without an exception.  The
code instead evaluates `tuple(int(asn.lstrip("AS")) for asn in
response.split())` before classifying, and `int` raises `ValueError` on
the prefix token, so the call raises before the route-set branch can
run. -/
theorem c1_route_set_response_raises :
    (getDataBySet (initClient true true true)
        ["A13\n", "192.0.2.0/24\n", "C\n"] "RS-TEST").val = .error .valueError := by
  decide

/-- C2: the claim says `connect()` never raises on a connection-setup
failure.  On a fresh client `self.s` is `None`, and the `socket.error`
handler's first statement `self.s.close()` raises `AttributeError`, so
the failure is not reported as `False`. -/
theorem c2_connect_raises_on_fresh_failure (st : ClientState) (stream : List String) :
    connect none false st stream = ⟨.error .attributeError, st, stream, []⟩ := rfl

/-- C3 counterexample: for a `C`-status response the claim demands one
trailing footer line be consumed, but `_response` returns right after
the header: of the stream `["C\n", "footer\n"]` the footer line is
still unread. -/
theorem c3_counterexample :
    response ["C\n", "footer\n"] = (.ok .tt, ["footer\n"])
    ∧ response ["C\n", "footer\n"] ≠ (.ok .tt, ([] : List String)) := by
  exact ⟨rfl, by decide⟩

/-- C3 amended: one trailing footer line is consumed only in the
`A`-status path, right after the body; for `C`, `D`, `E`, `F` and
malformed headers `_response` returns immediately after the header line
and no footer is read. -/
theorem c3_amended :
    (∀ (hline : String) (rest : List String) (c : Char) (cs : List Char),
      (pyRstrip hline).toList = c :: cs → c ≠ 'A' →
      response (hline :: rest) = (.ok .tt, rest) ∨ response (hline :: rest) = (.ok .ff, rest))
    ∧ (∀ (hline data foot : String) (rest rest2 : List String) (cs : List Char) (dl : Int),
      (pyRstrip hline).toList = 'A' :: cs →
      pyIntOfStr (String.mk cs) = some dl →
      readBody dl rest "" = some (data, foot :: rest2) →
      response (hline :: rest) = (.ok (.str (pyRstrip data)), rest2)) := by
  constructor
  · intro hline rest c cs h1 h2
    unfold response
    simp only [readLine, h1]
    by_cases hC : c = 'C'
    · simp [hC]
    · by_cases hD : c = 'D'
      · simp [hC, hD]
      · by_cases hE : c = 'E'
        · simp [hC, hD, hE]
        · by_cases hF : c = 'F'
          · simp [hC, hD, hE, hF]
          · simp [hC, hD, hE, hF, h2]
  · intro hline data foot rest rest2 cs dl h1 h2 h3
    unfold response
    simp only [readLine, h1, h2, h3]
    simp [readLine]

/-- Witness for C3: a `C` response leaves the would-be footer unread; an
`A2` response with its body and footer present consumes exactly the one
line after the body. -/
theorem c3_amended_witness :
    (response ["C\n", "x"] = (.ok .tt, ["x"]) ∨ response ["C\n", "x"] = (.ok .ff, ["x"]))
    ∧ response ["A2\n", "ab\n", "f\n", "z"] = (.ok (.str "ab"), ["z"]) := by
  constructor
  · exact c3_amended.1 "C\n" ["x"] 'C' [] (by decide) (by decide)
  · exact c3_amended.2 "A2\n" "ab\n" "f\n" ["ab\n", "f\n", "z"] ["z"] ['2'] 2
      (by decide) (by decide) (by decide)

/-- C4: with caching enabled, once a call to `get_routes_by_origin(n)`
has completed, any further call for the same ASN performs no I/O at
all: it sends no command, consumes nothing from the stream, leaves the
state unchanged and returns the very `RouteSet` the first call
computed — the wire is only used once per ASN. -/
theorem c4_second_call_hits_cache (st st1 : ClientState)
    (stream s1 stream2 sent1 : List String) (n : Int) (rs : RouteSetM)
    (hc : st.caching = true)
    (hfirst : getRoutesByOrigin st stream (.int n) = ⟨.ok rs, st1, s1, sent1⟩) :
    getRoutesByOrigin st1 stream2 (.int n) = ⟨.ok rs, st1, stream2, []⟩ := by
  have hmain : st1.caching = true ∧ cacheGet st1.cache (Sum.inl n) = some rs := by
    unfold getRoutesByOrigin at hfirst
    simp only [pyCoerceInt] at hfirst
    by_cases hcached : isCached st (Sum.inl n)
    · simp only [hcached, if_true] at hfirst
      have hsome : (cacheGet st.cache (Sum.inl n)).isSome :=
        by simpa [isCached, hc] using hcached
      obtain ⟨rs0, hrs0⟩ := Option.isSome_iff_exists.mp hsome
      rw [Run.mk.injEq] at hfirst
      obtain ⟨hval, hst, _, _⟩ := hfirst
      subst hst
      refine ⟨hc, ?_⟩
      rw [hrs0]
      simp [getCache, hc, hrs0] at hval
      simp [hval]
    · simp only [hcached, if_false, Bool.false_eq_true] at hfirst
      rcases hr1 : response stream with ⟨v1 | r1, str1⟩
      · simp [hr1] at hfirst
      · simp only [hr1] at hfirst
        rcases ha1 : addRespTokens (RouteSetM.empty st.aggregate) r1 with e | routes1
        · simp [ha1] at hfirst
        · simp only [ha1] at hfirst
          by_cases hip : st.ipv6
          · simp only [sendCmd, hip, if_true] at hfirst
            rcases hr2 : response str1 with ⟨v2 | r2, str2⟩
            · simp [hr2] at hfirst
            · simp only [hr2] at hfirst
              rcases ha2 : addRespTokens routes1 r2 with e | routes2
              · simp [ha2] at hfirst
              · simp only [ha2] at hfirst
                rw [Run.mk.injEq] at hfirst
                obtain ⟨hval, hst, _, _⟩ := hfirst
                rw [Except.ok.injEq] at hval
                subst hval
                subst hst
                constructor
                · simp [setCacheSt_caching, sendCmd]
                  exact hc
                · rw [cacheGet_setCacheSt_self]
                  simp [sendCmd]
                  exact hc
          · simp only [sendCmd, hip, if_false, Bool.false_eq_true] at hfirst
            rw [Run.mk.injEq] at hfirst
            obtain ⟨hval, hst, _, _⟩ := hfirst
            rw [Except.ok.injEq] at hval
            subst hval
            subst hst
            constructor
            · simp [setCacheSt_caching, sendCmd]
              exact hc
            · rw [cacheGet_setCacheSt_self]
              simp [sendCmd]
              exact hc
  exact grbo_hit st1 stream2 n rs hmain.1 hmain.2

def c4St0 : ClientState := initClient true true true

def c4St1 : ClientState :=
  { caching := true, aggregate := true, ipv6 := true,
    cache := [(Sum.inl 1, RouteSetM.empty true)], lastcommand := some "!6AS1" }

/-- Witness for C4: after a concrete first call (two `D` responses), a
repeat call for ASN 1 sends nothing and returns the cached set. -/
theorem c4_witness :
    getRoutesByOrigin c4St1 ["D\n"] (.int 1)
      = ⟨.ok (RouteSetM.empty true), c4St1, ["D\n"], []⟩ :=
  c4_second_call_hits_cache c4St0 c4St1 ["D\n", "D\n"] [] ["D\n"]
    ["!gAS1\n", "!6AS1\n"] 1 (RouteSetM.empty true) rfl (by decide)

/-- C5: a non-integer-coercible origin makes `get_routes_by_origin`
raise `TypeError` before any command is sent and before any line of the
stream is read; an integer-coercible origin never raises that
validation error. -/
theorem c5_validation (st : ClientState) (stream : List String) (origin : PyArg) :
    (pyCoerceInt origin = none →
      getRoutesByOrigin st stream origin = ⟨.error .typeError, st, stream, []⟩)
    ∧ (∀ n, pyCoerceInt origin = some n →
      (getRoutesByOrigin st stream origin).val ≠ .error .typeError) := by
  constructor
  · intro h
    unfold getRoutesByOrigin
    simp [h]
  · intro n h
    unfold getRoutesByOrigin
    rw [h]
    simp only []
    by_cases hcached : isCached st (Sum.inl n)
    · simp [hcached]
    · simp only [hcached, if_false, Bool.false_eq_true]
      rcases hr1 : response stream with ⟨v1 | r1, str1⟩
      · have := response_no_typeError stream
        rw [hr1] at this
        simp_all
      · simp only [hr1]
        rcases ha1 : addRespTokens (RouteSetM.empty st.aggregate) r1 with e | routes1
        · have := addRespTokens_no_typeError (RouteSetM.empty st.aggregate) r1
          rw [ha1] at this
          simp_all
        · simp only [ha1]
          by_cases hip : (sendCmd st ("!gAS" ++ toString n ++ "\n")).ipv6
          · simp only [hip, if_true]
            rcases hr2 : response str1 with ⟨v2 | r2, str2⟩
            · have := response_no_typeError str1
              rw [hr2] at this
              simp_all
            · simp only [hr2]
              rcases ha2 : addRespTokens routes1 r2 with e | routes2
              · have := addRespTokens_no_typeError routes1 r2
                rw [ha2] at this
                simp_all
              · simp [ha2]
          · simp [hip]

/-- Witness for C5: `"notanumber"` fails validation with no I/O, while
the integer origin 1 never sees a `TypeError`. -/
theorem c5_witness :
    getRoutesByOrigin (initClient true true true) ["D\n"] (.str "notanumber")
      = ⟨.error .typeError, initClient true true true, ["D\n"], []⟩
    ∧ (getRoutesByOrigin (initClient true true true) ["D\n", "D\n"] (.int 1)).val
      ≠ .error .typeError := by
  constructor
  · exact (c5_validation _ _ _).1 (by decide)
  · exact (c5_validation _ _ _).2 1 (by decide)

/-- C6: the claim says the IPv6 query is sent iff the `ipv6` flag given
at construction is set.  `__init__` assigns `self.ipv6 = True`
regardless of the argument, so a client constructed with `ipv6=False`
still sends `!6AS1` on a cache miss. -/
theorem c6_ipv6_flag_ignored :
    (initClient true true false).ipv6 = true
    ∧ (getRoutesByOrigin (initClient true true false) ["D\n", "D\n"] (.int 1)).sent
      = ["!gAS1\n", "!6AS1\n"] := by
  exact ⟨rfl, by decide⟩

/-- C7 counterexample: in non-aggregated mode `add("192.0.2.0/24")`
stores the parsed network object, but `__contains__` tests the raw
item against the buckets without normalising it, so the membership test
on the same string literal is false, not true. -/
theorem c7_counterexample :
    (RouteSetM.empty false).addVal (.str "192.0.2.0/24")
      = .ok ⟨false, [⟨4, 3221225984, 24⟩], []⟩
    ∧ (RouteSetM.mk false [⟨4, 3221225984, 24⟩] []).containsVal (.str "192.0.2.0/24")
      = .ok false := by
  exact ⟨by decide, by decide⟩

theorem addNet_aggregate (rs : RouteSetM) (q : IPNet) :
    (rs.addNet q).aggregate = rs.aggregate := by
  unfold RouteSetM.addNet
  repeat' split
  all_goals rfl

/-- C7 amended: after `add(P)` on a valid prefix literal `P`, the
membership test succeeds when the probe is the parsed network object of
`P` (in aggregated mode the merged bucket keeps a covering prefix; in
non-aggregated mode the parsed object itself is stored); probing with
the raw string literal `P`, however, returns false in non-aggregated
mode, because `__contains__` passes the item to the buckets without
normalising it and the buckets hold parsed network objects. -/
theorem c7_amended (P : String) (q : IPNet) (rs rs2 : RouteSetM)
    (hparse : ipMakeNetStr P = .ok q) (hadd : rs.addVal (.str P) = .ok rs2) :
    rs2.containsVal (.ipnet q) = .ok true
    ∧ (rs.aggregate = false → rs2.containsVal (.str P) = .ok false) := by
  have hrs2 : rs2 = rs.addNet q := by
    unfold RouteSetM.addVal at hadd
    simp only [ipMakeNet] at hadd
    rw [hparse] at hadd
    simp only [] at hadd
    exact ((Except.ok.injEq _ _).mp hadd).symm
  obtain ⟨hv, hw, hn⟩ := ipMakeNetStr_inv P q hparse
  subst hrs2
  constructor
  · unfold RouteSetM.addNet
    rcases hv with h4 | h6
    · rw [h4]
      by_cases hagg : rs.aggregate
      · obtain ⟨r, hm, hs⟩ := ipsetAdd_covers q rs.ip4 hw hn
        simp [RouteSetM.containsVal, hagg, ipsetContainsNet, List.any_eq_true]
        exact Or.inl ⟨r, hm, hs⟩
      · by_cases hmem : q ∈ rs.ip4
        · simp [RouteSetM.containsVal, hagg, setAdd, hmem]
        · simp [RouteSetM.containsVal, hagg, setAdd, hmem]
    · rw [h6]
      by_cases hagg : rs.aggregate
      · obtain ⟨r, hm, hs⟩ := ipsetAdd_covers q rs.ip6 hw hn
        simp [RouteSetM.containsVal, hagg, ipsetContainsNet, List.any_eq_true]
        exact Or.inr ⟨r, hm, hs⟩
      · by_cases hmem : q ∈ rs.ip6
        · simp [RouteSetM.containsVal, hagg, setAdd, hmem]
        · simp [RouteSetM.containsVal, hagg, setAdd, hmem]
  · intro hna
    unfold RouteSetM.containsVal
    rw [addNet_aggregate, hna]
    simp

def c7rs2 : RouteSetM := ⟨false, [⟨4, 167772160, 24⟩], []⟩

/-- Witness for C7: adding `10.0.0.0/24` to a fresh non-aggregated
`RouteSet` makes the parsed network a member while the raw string probe
stays outside. -/
theorem c7_amended_witness :
    c7rs2.containsVal (.ipnet ⟨4, 167772160, 24⟩) = .ok true
    ∧ ((RouteSetM.empty false).aggregate = false →
      c7rs2.containsVal (.str "10.0.0.0/24") = .ok false) :=
  c7_amended "10.0.0.0/24" ⟨4, 167772160, 24⟩ (RouteSetM.empty false) c7rs2
    (by decide) (by decide)

def c8rs : RouteSetM := ⟨true, [⟨4, 167772160, 24⟩], []⟩

def c8st : ClientState :=
  ⟨true, true, true, [(Sum.inr "RS-EXAMPLE", c8rs)], none⟩

/-- C8 counterexample: with the set name already cached,
`get_data_by_set` returns the bare cached `RouteSet` (the `_get_cache`
early return), not a `(RouteSet, tuple)` pair. -/
theorem c8_counterexample :
    (getDataBySet c8st [] "RS-EXAMPLE").val = .ok (.bare c8rs)
    ∧ (getDataBySet c8st [] "RS-EXAMPLE").val.map SetResult.isTup ≠ .ok true := by
  exact ⟨by decide, by decide⟩

/-- C8 amended: `get_data_by_set` returns a `(RouteSet, tuple of
member ASNs)` pair on every cache miss (including error-free early
returns); on a cache hit it instead returns the bare cached `RouteSet`,
with no command sent and the stream untouched. -/
theorem c8_amended (st : ClientState) (stream : List String) (s : String) :
    (isCached st (Sum.inr s) = false →
      (getDataBySet st stream s).val.map SetResult.isTup ≠ .ok false)
    ∧ (∀ rs, st.caching = true → cacheGet st.cache (Sum.inr s) = some rs →
      getDataBySet st stream s = ⟨.ok (.bare rs), st, stream, []⟩) := by
  constructor
  · intro hmiss hc
    unfold getDataBySet at hc
    simp only [hmiss, Bool.false_eq_true, if_false] at hc
    repeat' split at hc
    all_goals simp_all [SetResult.isTup, Except.map]
  · intro rs hcache hget
    unfold getDataBySet
    simp [isCached, getCache, hcache, hget]

/-- Witness for C8: a concrete miss (a `D` response) yields a pair,
and a concrete hit returns the bare cached `RouteSet`. -/
theorem c8_amended_witness :
    (getDataBySet (initClient true true true) ["D\n"] "AS-X").val.map SetResult.isTup
      ≠ .ok false
    ∧ getDataBySet c8st [] "RS-EXAMPLE" = ⟨.ok (.bare c8rs), c8st, [], []⟩ := by
  constructor
  · exact (c8_amended _ _ _).1 (by decide)
  · exact (c8_amended _ _ _).2 c8rs (by decide) (by decide)

theorem grbo_frame_inr (st : ClientState) (stream : List String) (o : PyArg) (s : String) :
    cacheGet (getRoutesByOrigin st stream o).st.cache (Sum.inr s)
      = cacheGet st.cache (Sum.inr s) := by
  unfold getRoutesByOrigin
  repeat' split
  all_goals cases hip : st.ipv6 <;> simp [hip, sendCmd, cacheGet_setCacheSt_inl]

theorem asSetLoop_frame_inr (asns : List Int) : ∀ (st : ClientState)
    (stream : List String) (routes : RouteSetM) (s : String),
    cacheGet (asSetLoop st stream routes asns).st.cache (Sum.inr s)
      = cacheGet st.cache (Sum.inr s) := by
  induction asns with
  | nil =>
    intro st stream routes s
    simp [asSetLoop]
  | cons a rest ih =>
    intro st stream routes s
    simp only [asSetLoop]
    split
    · exact grbo_frame_inr st stream (.int a) s
    · split
      · exact grbo_frame_inr st stream (.int a) s
      · rw [ih]
        exact grbo_frame_inr st stream (.int a) s

/-- C9: `get_data_by_set` writes the cache entry for the set name `s`
only in the route-set classification case with a non-empty resulting
`RouteSet` (and caching enabled); on every other path — cache hit,
failed or empty response, `ValueError`, empty ASN tuple, empty
route-set, or the as-set recursion (whose sub-lookups write only
integer ASN keys) — the entry for `s` is left unchanged. -/
theorem c9_set_cache_frame (st : ClientState) (stream : List String) (s : String) :
    cacheGet (getDataBySet st stream s).st.cache (Sum.inr s) = cacheGet st.cache (Sum.inr s)
    ∨ (∃ rs asns body s1,
      (getDataBySet st stream s).val = .ok (.tup rs asns)
      ∧ rs.truthy = true
      ∧ response stream = (.ok (.str body), s1)
      ∧ classifiesRouteSet (pyUpper body) = true
      ∧ cacheGet (getDataBySet st stream s).st.cache (Sum.inr s) = some rs) := by
  unfold getDataBySet
  by_cases hcached : isCached st (Sum.inr s)
  · left
    simp [hcached]
  · simp only [hcached, Bool.false_eq_true, if_false]
    rcases hr1 : response stream with ⟨v1 | r1, str1⟩
    · left
      simp [sendCmd]
    · simp only []
      cases r1 with
      | tt =>
        left
        simp [RResult.truthy, sendCmd]
      | ff =>
        left
        simp [RResult.truthy, sendCmd]
      | str body =>
        by_cases ht : (RResult.str body).truthy
        · simp only [ht, Bool.not_true, Bool.false_eq_true, if_false]
          rcases hparse : parseAutnums (pySplit (pyUpper body)) with _ | autnums
          · left
            simp [sendCmd]
          · simp only []
            by_cases hempt : autnums.isEmpty
            · left
              simp [hempt, sendCmd]
            · simp only [hempt, Bool.false_eq_true, if_false]
              by_cases hclass : classifiesRouteSet (pyUpper body)
              · simp only [hclass, if_true]
                rcases haa : addAll (RouteSetM.empty st.aggregate)
                    (autnums.map PyVal.intv) with e | routes1
                · left
                  simp [sendCmd]
                · simp only []
                  by_cases htr : routes1.truthy
                  · by_cases hcaching : st.caching
                    · right
                      refine ⟨routes1, autnums, body, str1, by simp [htr], htr, rfl, hclass, ?_⟩
                      simp only [htr, if_true]
                      rw [cacheGet_setCacheSt_self]
                      simp [sendCmd]
                      exact hcaching
                    · left
                      simp [htr, setCacheSt, sendCmd, hcaching]
                  · left
                    simp [htr, sendCmd]
              · simp only [hclass, Bool.false_eq_true, if_false]
                left
                split
                all_goals (rw [asSetLoop_frame_inr]; simp [sendCmd])
        · left
          simp [ht, sendCmd]

/-- C10: a successful `A0` response has a zero-length body, so
`_response` returns the empty string; the empty string is falsy, so
`set_sources` and `get_sources` both return `False` for it, exactly as
they do for a protocol failure. -/
theorem c10_empty_body_collapses (st : ClientState) (f : String)
    (rest : List String) (sources : String) :
    response ("A0\n" :: f :: rest) = (.ok (.str ""), rest)
    ∧ (setSources st ("A0\n" :: f :: rest) sources).val = .ok .falseV
    ∧ (getSources st ("A0\n" :: f :: rest)).val = .ok .ff := by
  exact ⟨rfl, rfl, rfl⟩

end IRRPT
